import Mathlib

/-!
Shallow embedding of `langkit/gdb/commands.py`: the GDB helper commands
`state`, `break` and `out` of the langkit debugging bridge, together with
the data model they consume (`debug_info` events/scopes/properties and the
decoded `state` snapshots).  Side effects of the commands (printed lines,
breakpoints created, `until` resumptions) are modelled as explicit outputs;
Python attribute errors on `None` are modelled as an explicit error outcome.
-/

namespace Langkit

/-- Modelled from the spec: `DSLLocation` lives in `langkit/gdb/debug_info.py`,
which is not part of the sources; per the spec it is an original-source
position made of a file name, a line, and an optional finer sub-position. -/
structure DSLLocation where
  file : String
  line : Nat
  column : Option Nat
  deriving DecidableEq

/-- Modelled from the spec: the partial-match rule — a query with only a
file/line specified matches any location in that file and line regardless of
finer-grained position; a query with a sub-position requires it to agree. -/
def DSLLocation.matchesLoc (l query : DSLLocation) : Bool :=
  l.file == query.file && l.line == query.line &&
    (match query.column with
     | none => true
     | some c => l.column == some c)

/-- Modelled from the spec: textual rendering of a DSL location
(`file:line[:column]`), used when commands format locations in messages. -/
def DSLLocation.str (l : DSLLocation) : String :=
  l.file ++ ":" ++ toString l.line ++
    (match l.column with
     | none => ""
     | some c => ":" ++ toString c)

/-- Events of a scope of the debug-info model (`debug_info.py`, external per
the spec): bindings, expression start/done markers, and nested scopes.  A
nested scope is stored inline as its first generated line plus its events. -/
inductive Event where
  | binding (dsl_name gen_name : String)
  | exprStart (expr_id : Nat) (expr_repr : String) (dsl_sloc : Option DSLLocation)
      (line_no : Nat)
  | exprDone (expr_id : Nat) (line_no : Nat) (result_var : String)
  | subScope (first_line : Nat) (events : List Event)

mutual

/-- Decidable equality for events (hand-written: `Event` nests `List Event`). -/
def Event.decEq : (a b : Event) → Decidable (a = b)
  | .binding x y, .binding x' y' =>
    if h1 : x = x' then
      if h2 : y = y' then .isTrue (by rw [h1, h2])
      else .isFalse (fun he => h2 (by injection he))
    else .isFalse (fun he => h1 (by injection he))
  | .exprStart i r s l, .exprStart i' r' s' l' =>
    if h : i = i' ∧ r = r' ∧ s = s' ∧ l = l' then
      .isTrue (by rw [h.1, h.2.1, h.2.2.1, h.2.2.2])
    else
      .isFalse (fun he => h (by injection he with e1 e2 e3 e4; exact ⟨e1, e2, e3, e4⟩))
  | .exprDone i l v, .exprDone i' l' v' =>
    if h : i = i' ∧ l = l' ∧ v = v' then .isTrue (by rw [h.1, h.2.1, h.2.2])
    else .isFalse (fun he => h (by injection he with e1 e2 e3; exact ⟨e1, e2, e3⟩))
  | .subScope f evs, .subScope f' evs' =>
    if h1 : f = f' then
      match Event.decEqList evs evs' with
      | .isTrue h2 => .isTrue (by rw [h1, h2])
      | .isFalse h2 => .isFalse (fun he => h2 (by injection he))
    else .isFalse (fun he => h1 (by injection he))
  | .binding _ _, .exprStart _ _ _ _ => .isFalse (fun h => Event.noConfusion h)
  | .binding _ _, .exprDone _ _ _ => .isFalse (fun h => Event.noConfusion h)
  | .binding _ _, .subScope _ _ => .isFalse (fun h => Event.noConfusion h)
  | .exprStart _ _ _ _, .binding _ _ => .isFalse (fun h => Event.noConfusion h)
  | .exprStart _ _ _ _, .exprDone _ _ _ => .isFalse (fun h => Event.noConfusion h)
  | .exprStart _ _ _ _, .subScope _ _ => .isFalse (fun h => Event.noConfusion h)
  | .exprDone _ _ _, .binding _ _ => .isFalse (fun h => Event.noConfusion h)
  | .exprDone _ _ _, .exprStart _ _ _ _ => .isFalse (fun h => Event.noConfusion h)
  | .exprDone _ _ _, .subScope _ _ => .isFalse (fun h => Event.noConfusion h)
  | .subScope _ _, .binding _ _ => .isFalse (fun h => Event.noConfusion h)
  | .subScope _ _, .exprStart _ _ _ _ => .isFalse (fun h => Event.noConfusion h)
  | .subScope _ _, .exprDone _ _ _ => .isFalse (fun h => Event.noConfusion h)

/-- Decidable equality for event lists. -/
def Event.decEqList : (a b : List Event) → Decidable (a = b)
  | [], [] => .isTrue rfl
  | [], _ :: _ => .isFalse (fun h => List.noConfusion h)
  | _ :: _, [] => .isFalse (fun h => List.noConfusion h)
  | x :: xs, y :: ys =>
    match Event.decEq x y with
    | .isTrue h1 =>
      match Event.decEqList xs ys with
      | .isTrue h2 => .isTrue (by rw [h1, h2])
      | .isFalse h2 => .isFalse (fun he => h2 (by injection he))
    | .isFalse h1 => .isFalse (fun he => h1 (by injection he))

end

instance : DecidableEq Event := Event.decEq

/-- A scope of generated code: its first generated line and its event list. -/
structure Scope where
  first_line : Nat
  events : List Event
  deriving DecidableEq

/-- A property of the debug-info model: qualified name, DSL location of its
definition, and its root scope's events. -/
structure Property where
  name : String
  dsl_sloc : String
  events : List Event
  deriving DecidableEq

/-- `Property.subscopes`: the scope events of the property's root scope
(in `debug_info.py` a property is a scope and `subscopes` filters its
`Scope` events). -/
def Property.subscopes (p : Property) : List Scope :=
  p.events.filterMap fun e =>
    match e with
    | .subScope fl evs => some ⟨fl, evs⟩
    | _ => none

/-- The read-only debug-info model: the generated source file name and the
list of properties. -/
structure DebugInfo where
  filename : String
  properties : List Property

/-- Status of one expression evaluation in a decoded state
(`langkit/gdb/state.py`, external per the spec). -/
inductive ExprStatus where
  | created
  | started
  | done
  deriving DecidableEq

/-- One expression evaluation of a decoded scope state: its id, textual
representation, optional DSL location, status, and (when done) the generated
variable holding its result. -/
structure ExpressionEvaluation where
  expr_id : Nat
  expr_repr : String
  dsl_sloc : Option DSLLocation
  status : ExprStatus
  result_var : String
  deriving DecidableEq

def ExpressionEvaluation.is_started (e : ExpressionEvaluation) : Bool :=
  e.status == .started

def ExpressionEvaluation.is_done (e : ExpressionEvaluation) : Bool :=
  e.status == .done

/-- A binding visible in a scope state: DSL name and backing storage name. -/
structure Binding where
  dsl_name : String
  gen_name : String
  deriving DecidableEq

/-- The decoded evaluation status of one scope: the static scope, the visible
bindings, and the expression evaluations in event order. -/
structure ScopeState where
  scope : Scope
  bindings : List Binding
  expressions : List ExpressionEvaluation
  deriving DecidableEq

/-- A decoded state snapshot: the active property and the scope states from
outermost to innermost. -/
structure State where
  property : Property
  scopes : List ScopeState
  deriving DecidableEq

/-- Python's `str.lower()`: lower-case every character. -/
def pyLower (s : String) : String :=
  String.mk (s.data.map Char.toLower)

/-- Python's `str.startswith(c)` for a one-character prefix: the string is
non-empty and its first character is `c`. -/
def startsWithChar (s : String) (c : Char) : Bool :=
  match s.data with
  | [] => false
  | c0 :: _ => c0 == c

/-! ## StatePrinter (`commands.py` lines 56-134) -/

/-- The `StatePrinter` object: the selected frame is modelled as the mapping
from (lower-cased) variable names to their display text, and the decoded
state as an optional `State`. -/
structure StatePrinter where
  frame : String → String
  state : Option State
  with_ellipsis : Bool
  with_locs : Bool

def StatePrinter.ellipsis_limit : Nat := 50

/-- `StatePrinter.loc_image`: the storage-name parenthetical, or nothing. -/
def StatePrinter.loc_image (sp : StatePrinter) (var_name : String) : String :=
  if sp.with_locs then " (" ++ var_name ++ ")" else ""

/-- `StatePrinter.value_image`: read the variable (lower-cased name) and
truncate with an ellipsis when requested and over the limit. -/
def StatePrinter.value_image (sp : StatePrinter) (var_name : String) : String :=
  let value := sp.frame (pyLower var_name)
  if sp.with_ellipsis && value.length > StatePrinter.ellipsis_limit then
    value.take StatePrinter.ellipsis_limit ++ "..."
  else
    value

/-- The line printed for one binding in `StatePrinter.run`. -/
def StatePrinter.bindingLine (sp : StatePrinter) (b : Binding) : String :=
  b.dsl_name ++ sp.loc_image b.gen_name ++ " = " ++ sp.value_image b.gen_name

/-- The line printed for one completed expression in `StatePrinter.run`. -/
def StatePrinter.doneLine (sp : StatePrinter) (e : ExpressionEvaluation) : String :=
  e.expr_repr ++ sp.loc_image e.result_var ++ " -> " ++ sp.value_image e.result_var

/-- The trailing lines printed for the last in-progress expression of a
scope, if any. -/
def StatePrinter.startedLines (last_started : Option ExpressionEvaluation) :
    List String :=
  match last_started with
  | none => []
  | some e =>
    ("Currently evaluating " ++ e.expr_repr) ::
      (match e.dsl_sloc with
       | none => []
       | some l => ["from " ++ l.str])

/-- The items printed for one scope state in `StatePrinter.run`, in print
order: bindings, then completed expressions, then the current expression. -/
def StatePrinter.scopeItems (sp : StatePrinter) (ss : ScopeState) : List String :=
  (ss.bindings.map sp.bindingLine) ++
  (ss.expressions.filterMap fun e =>
    if e.is_started then none
    else if e.is_done then some (sp.doneLine e)
    else none) ++
  StatePrinter.startedLines
    (ss.expressions.foldl (fun acc e => if e.is_started then some e else acc) none)

/-- The lines printed for one scope state: the `print_info` closure prints
one blank line before the first item of the scope and nothing for an empty
scope. -/
def StatePrinter.scopeLines (sp : StatePrinter) (ss : ScopeState) : List String :=
  match sp.scopeItems ss with
  | [] => []
  | items => "" :: items

/-- `StatePrinter.run`: the full list of printed lines. -/
def StatePrinter.run (sp : StatePrinter) : List String :=
  match sp.state with
  | none => ["Selected frame is not in a property."]
  | some st =>
    ("Running " ++ st.property.name) ::
    ("from " ++ st.property.dsl_sloc) ::
    (st.scopes.flatMap fun ss => sp.scopeLines ss)

/-! ## StateCommand (`commands.py` lines 24-53) -/

/-- Python `repr` of a one-character string, as printed by the invalid-flag
message. -/
def charRepr (c : Char) : String :=
  let q := String.singleton (Char.ofNat 39)
  q ++ String.singleton c ++ q

/-- The flag-processing loop of `StateCommand.invoke`: fold the flag
characters over the printer's `(with_ellipsis, with_locs)` pair, stopping at
the first character that is neither `f` nor `s`. -/
def applyFlags : List Char → Bool → Bool → Except Char (Bool × Bool)
  | [], with_e, with_l => .ok (with_e, with_l)
  | c :: rest, with_e, with_l =>
    if c = 'f' then applyFlags rest false with_l
    else if c = 's' then applyFlags rest with_e true
    else .error c

/-- `StateCommand.invoke`: parse the optional `/flags` argument and run the
printer; the output is the list of printed lines. -/
def StateCommand.invoke (arg : String) (frame : String → String)
    (state : Option State) : List String :=
  if arg ≠ "" then
    if ¬ startsWithChar arg '/' then
      ["Invalid argument"]
    else
      match applyFlags (arg.drop 1).toList true false with
      | .error c => ["Invalid flag: " ++ charRepr c]
      | .ok (with_e, with_l) =>
        StatePrinter.run ⟨frame, state, with_e, with_l⟩
  else
    StatePrinter.run ⟨frame, state, true, false⟩

/-! ## BreakCommand (`commands.py` lines 137-219) -/

/-- Observable outcome of a `break` command: the printed lines and the
breakpoint specifications (`file:line`) passed to `gdb.Breakpoint`. -/
structure CmdResult where
  prints : List String := []
  breakpoints : List String := []
  deriving DecidableEq

/-- `BreakCommand.break_on_property`: case-insensitive exact-name lookup, then
a breakpoint on the first line of the property's first inner scope. -/
def BreakCommand.break_on_property (di : DebugInfo) (qualname : String) :
    CmdResult :=
  let lower_prop := pyLower qualname
  if lower_prop = "" then
    { prints := ["Missing breakpoint specification"] }
  else
    match di.properties.find? (fun p => pyLower p.name == lower_prop) with
    | none => { prints := ["No such property: " ++ qualname] }
    | some prop =>
      match prop.subscopes with
      | [] => { prints := [prop.name ++ " has no code"] }
      | s :: _ =>
        { breakpoints := [di.filename ++ ":" ++ toString s.first_line] }

/-- A match found by `break_on_dsl_sloc`: property, DSL location of the
matching `ExprStart`, and its generated line. -/
structure Match where
  prop : Property
  dsl_sloc : DSLLocation
  line_no : Nat
  deriving DecidableEq

mutual

/-- The recursive `process_scope` visitor of `break_on_dsl_sloc`, on one
event: an `ExprStart` with a matching DSL location contributes itself, and a
nested scope is searched recursively. -/
def processEvent (query : DSLLocation) : Event → List (DSLLocation × Nat)
  | .subScope _ evs => processEvents query evs
  | .exprStart _ _ (some l) ln => if l.matchesLoc query then [(l, ln)] else []
  | _ => []

/-- The recursive `process_scope` visitor of `break_on_dsl_sloc`, on an event
list: collect, in order, every `ExprStart` event (recursing into nested
scopes at their position) whose DSL location matches the query. -/
def processEvents (query : DSLLocation) : List Event → List (DSLLocation × Nat)
  | [] => []
  | e :: rest => processEvent query e ++ processEvents query rest

end

/-- All matches collected by `break_on_dsl_sloc` over the whole model, in
property order then event order. -/
def collectMatches (di : DebugInfo) (query : DSLLocation) : List Match :=
  di.properties.flatMap fun p =>
    (processEvents query p.events).map fun m => ⟨p, m.1, m.2⟩

/-- `BreakCommand.break_on_dsl_sloc`, after the argument has been parsed into
a `DSLLocation`: zero matches and two-or-more matches print a message and set
no breakpoint; exactly one match sets one breakpoint. -/
def BreakCommand.break_on_dsl_sloc (di : DebugInfo) (query : DSLLocation) :
    CmdResult :=
  match collectMatches di query with
  | [] => { prints := ["No match for " ++ query.str] }
  | [m] =>
    { breakpoints := [di.filename ++ ":" ++ toString m.line_no] }
  | ms =>
    { prints :=
        ("Multiple matches for " ++ query.str ++ ":") ::
          ms.map fun m => "  In " ++ m.prop.name ++ ", " ++ m.dsl_sloc.str }

/-! ## OutCommand (`commands.py` lines 222-301) -/

/-- `OutCommand.lookup_current_expr` on a non-null state: innermost scope
first, and within a scope the last started expression in event order. -/
def OutCommand.lookup_current_expr (st : State) :
    Option (ScopeState × ExpressionEvaluation) :=
  st.scopes.reverse.findSome? fun ss =>
    (ss.expressions.reverse.find? fun e => e.is_started).map fun e => (ss, e)

/-- `OutCommand.lookup_expr` on a non-null state: first expression evaluation
with the given id, scanning scopes outermost first. -/
def OutCommand.lookup_expr (st : State) (expr_id : Nat) :
    Option ExpressionEvaluation :=
  st.scopes.findSome? fun ss =>
    ss.expressions.find? fun e => e.expr_id == expr_id

/-- Observable outcome of the `out` command: printed lines and the line
number passed to `gdb.execute('until ...')`, if any resume happened. -/
structure OutResult where
  prints : List String := []
  untilExecuted : Option Nat := none
  deriving DecidableEq

/-- Outcome of one `out` invocation: normal return, or an uncaught Python
`AttributeError` (raised when a `None` state's attributes are accessed), with
the side effects performed before the exception escaped. -/
inductive OutOutcome where
  | ok (r : OutResult)
  | raised (partialResult : OutResult)
  deriving DecidableEq

/-- The `until` line passed to the host debugger by an `out` invocation. -/
def OutOutcome.untilLine : OutOutcome → Option Nat
  | .ok r => r.untilExecuted
  | .raised r => r.untilExecuted

/-- Python `repr` of an `ExpressionEvaluation`, used by the
code-generation-bug message (modelled from the id, as in `state.py`). -/
def exprEvalImage (e : ExpressionEvaluation) : String :=
  "<ExpressionEvaluation " ++ toString e.expr_id ++ ">"

/-- The `error` helper local to `OutCommand.invoke`. -/
def OutCommand.errorMsg (msg : String) : String :=
  "ERROR: " ++ msg ++ ": something went wrong..."

/-- One step of the loop of `OutCommand.invoke` that looks for the end of
evaluation: an `ExprDone` event carrying the current expression's id
overwrites the candidate line. -/
def untilStep (expr_id : Nat) (acc : Option Nat) (e : Event) : Option Nat :=
  match e with
  | .exprDone i ln _ => if i == expr_id then some ln else acc
  | _ => acc

/-- The scan of `OutCommand.invoke` for the end of evaluation: fold over the
scope's events, overwriting the candidate line at every `ExprDone` event
carrying the current expression's id. -/
def OutCommand.untilLineScan (events : List Event) (expr_id : Nat) : Option Nat :=
  events.foldl (untilStep expr_id) none

/-- `OutCommand.invoke`.  Inputs: the argument, the decoded state
(`decode_state()`), the re-decoding function (state decoded after
`gdb.execute('until ...')` stops at a line), and the frame's variable reader
at that point.  Accessing `scopes` on a `None` state (in
`lookup_current_expr` / `lookup_expr`) raises an `AttributeError`. -/
def OutCommand.invoke (arg : String) (state : Option State)
    (redecode : Nat → Option State) (readVar : String → String) : OutOutcome :=
  if arg ≠ "" then
    .ok { prints := ["This command takes no argument"] }
  else
    match state with
    | none => .raised {}
    | some st =>
      match OutCommand.lookup_current_expr st with
      | none => .ok { prints := ["Not evaluating any expression currently"] }
      | some (scope_state, current_expr) =>
        match OutCommand.untilLineScan scope_state.scope.events current_expr.expr_id with
        | none =>
          .ok { prints := ["ERROR: cannot find the end of evaluation for expression "
                  ++ exprEvalImage current_expr ++ ". Code generation may have a bug."] }
        | some until_line_no =>
          match redecode until_line_no with
          | none => .raised { untilExecuted := some until_line_no }
          | some new_state =>
            let new_expr := OutCommand.lookup_expr new_state current_expr.expr_id
            if new_state.property ≠ st.property then
              .ok { prints := [OutCommand.errorMsg "we landed in another property"],
                    untilExecuted := some until_line_no }
            else
              match new_expr with
              | none =>
                .ok { prints := [OutCommand.errorMsg "cannot find back the same expression"],
                      untilExecuted := some until_line_no }
              | some ne =>
                if ¬ ne.is_done then
                  .ok { prints := [OutCommand.errorMsg "the expression is not evaluated yet"],
                        untilExecuted := some until_line_no }
                else
                  .ok { prints := [current_expr.expr_repr ++ " evaluated to: "
                          ++ readVar (pyLower ne.result_var)],
                        untilExecuted := some until_line_no }

/-! ## Specification-side helpers -/

mutual

/-- All `ExprStart` events carrying a DSL location in one event, nested
scopes included: the DSL location and the generated line of each. -/
def startsOf : Event → List (DSLLocation × Nat)
  | .subScope _ evs => allStarts evs
  | .exprStart _ _ (some l) ln => [(l, ln)]
  | _ => []

/-- All `ExprStart` events carrying a DSL location in an event list, nested
scopes included, in the traversal order of `process_scope`: the DSL location
and the generated line of each. -/
def allStarts : List Event → List (DSLLocation × Nat)
  | [] => []
  | e :: rest => startsOf e ++ allStarts rest

end

/-- The generated lines of the `ExprDone` events carrying a given expression
id, in event order, at the top level of an event list. -/
def doneLinesFor (events : List Event) (expr_id : Nat) : List Nat :=
  events.filterMap fun e =>
    match e with
    | .exprDone i ln _ => if i == expr_id then some ln else none
    | _ => none

/-! ## Theorems -/

/-- A string whose length is positive is not the empty string. -/
theorem String.ne_empty_of_length_pos {s : String} (h : 0 < s.length) : s ≠ "" := by
  intro he
  rw [he] at h
  exact Nat.lt_irrefl 0 h

/-- `find?` returns the head of the filtered list. -/
theorem List.find?_eq_head?_filter {α : Type} (p : α → Bool) :
    ∀ l : List α, l.find? p = (l.filter p).head? := by
  intro l
  induction l with
  | nil => rfl
  | cons x xs ih =>
    cases hx : p x
    · rw [List.find?_cons_of_neg _ (by simp [hx]), List.filter_cons_of_neg (by simp [hx]), ih]
    · rw [List.find?_cons_of_pos _ hx, List.filter_cons_of_pos hx, List.head?_cons]

/-- C5: For every variable value rendered by the state printer: if
`with_ellipsis` is true and the value's display text is longer than 50
characters, the rendered output equals the first 50 characters followed by a
truncation marker; if the display text is at most 50 characters it is
rendered unchanged; and if `with_ellipsis` is false the display text is
rendered unchanged regardless of its length. -/
theorem C5_value_image_truncation (sp : StatePrinter) (var_name : String) :
    (sp.with_ellipsis = true → 50 < (sp.frame (pyLower var_name)).length →
      sp.value_image var_name = (sp.frame (pyLower var_name)).take 50 ++ "...") ∧
    ((sp.frame (pyLower var_name)).length ≤ 50 →
      sp.value_image var_name = sp.frame (pyLower var_name)) ∧
    (sp.with_ellipsis = false →
      sp.value_image var_name = sp.frame (pyLower var_name)) := by
  refine ⟨fun he hlen => ?_, fun hlen => ?_, fun he => ?_⟩
  · rw [StatePrinter.value_image]
    simp only [StatePrinter.ellipsis_limit, he, Bool.true_and, gt_iff_lt,
      decide_eq_true_eq]
    rw [if_pos hlen]
  · rw [StatePrinter.value_image]
    simp only [StatePrinter.ellipsis_limit, gt_iff_lt, decide_eq_true_eq]
    rw [if_neg]
    simp only [Bool.and_eq_true, decide_eq_true_eq, not_and]
    exact fun _ => Nat.not_lt.mpr hlen
  · rw [StatePrinter.value_image]
    simp [he]

/-- Witness for C5 at concrete inputs: a 60-character value is truncated to
its first 50 characters plus the marker when the ellipsis is enabled. -/
theorem C5_value_image_truncation_witness :
    StatePrinter.value_image
        ⟨fun _ => "012345678901234567890123456789012345678901234567890123456789",
         none, true, false⟩ "v"
      = "012345678901234567890123456789012345678901234567890123456789".take 50
          ++ "..." :=
  (C5_value_image_truncation
    ⟨fun _ => "012345678901234567890123456789012345678901234567890123456789",
     none, true, false⟩ "v").1 rfl (by decide)

/-- C9: For the input consisting of exactly the single character `/`, the
state command does not reject the argument: it prints the state exactly as
the flag-less invocation does, with ellipsis truncation enabled and storage
names hidden. -/
theorem C9_slash_only_argument (frame : String → String) (state : Option State) :
    StateCommand.invoke "/" frame state
        = StatePrinter.run ⟨frame, state, true, false⟩ ∧
    StateCommand.invoke "/" frame state = StateCommand.invoke "" frame state :=
  ⟨rfl, rfl⟩

/-- If the flag characters contain one that is neither `f` nor `s`, the flag
loop stops with an error on such a character (the first one). -/
theorem applyFlags_error_of_bad :
    ∀ (l : List Char) (we wl : Bool), (∃ c ∈ l, c ≠ 'f' ∧ c ≠ 's') →
      ∃ c ∈ l, c ≠ 'f' ∧ c ≠ 's' ∧ applyFlags l we wl = .error c := by
  intro l
  induction l with
  | nil => intro we wl h; obtain ⟨c, hc, -⟩ := h; cases hc
  | cons x xs ih =>
    intro we wl h
    by_cases hf : x = 'f'
    · subst hf
      obtain ⟨c, hc, hcf, hcs⟩ := h
      rcases List.mem_cons.mp hc with rfl | hc
      · exact absurd rfl hcf
      · obtain ⟨c, hmem, h1, h2, h3⟩ := ih false wl ⟨c, hc, hcf, hcs⟩
        exact ⟨c, List.mem_cons_of_mem _ hmem, h1, h2, by simpa [applyFlags] using h3⟩
    · by_cases hs : x = 's'
      · subst hs
        obtain ⟨c, hc, hcf, hcs⟩ := h
        rcases List.mem_cons.mp hc with rfl | hc
        · exact absurd rfl hcs
        · obtain ⟨c, hmem, h1, h2, h3⟩ := ih we true ⟨c, hc, hcf, hcs⟩
          exact ⟨c, List.mem_cons_of_mem _ hmem, h1, h2,
            by simpa [applyFlags, hf] using h3⟩
      · exact ⟨x, List.mem_cons_self _ _, hf, hs, by simp [applyFlags, hf, hs]⟩

/-- C8: For every non-empty argument string given to the state command that
is malformed (does not start with `/`) or that contains a flag character
other than `f` or `s` after the `/`, the command prints an error message and
returns without printing any state; an argument of `/f` disables ellipsis
truncation and `/s` enables display of backing storage names. -/
theorem C8_state_command_flags (arg : String) (frame : String → String)
    (state : Option State) :
    (arg ≠ "" → startsWithChar arg '/' = false →
      StateCommand.invoke arg frame state = ["Invalid argument"]) ∧
    (startsWithChar arg '/' = true →
      (∃ c ∈ (arg.drop 1).toList, c ≠ 'f' ∧ c ≠ 's') →
      ∃ c ∈ (arg.drop 1).toList, c ≠ 'f' ∧ c ≠ 's' ∧
        StateCommand.invoke arg frame state = ["Invalid flag: " ++ charRepr c]) ∧
    StateCommand.invoke "/f" frame state
        = StatePrinter.run ⟨frame, state, false, false⟩ ∧
    StateCommand.invoke "/s" frame state
        = StatePrinter.run ⟨frame, state, true, true⟩ := by
  refine ⟨fun hne hsw => ?_, fun hsw hbad => ?_, rfl, rfl⟩
  · simp [StateCommand.invoke, hne, hsw]
  · have hne : arg ≠ "" := by
      intro he
      rw [he] at hsw
      exact Bool.noConfusion hsw
    obtain ⟨c, hmem, h1, h2, h3⟩ :=
      applyFlags_error_of_bad (arg.drop 1).toList true false hbad
    have h3' : applyFlags arg.data.tail true false = Except.error c := by
      simpa using h3
    exact ⟨c, hmem, h1, h2, by simp [StateCommand.invoke, hne, hsw, h3']⟩

/-- Witness for C8 at concrete inputs: `state q` is rejected as malformed and
`state /q` is rejected with an invalid-flag message. -/
theorem C8_state_command_flags_witness :
    StateCommand.invoke "q" (fun _ => "") none = ["Invalid argument"] ∧
    ∃ c ∈ (("/q" : String).drop 1).toList, c ≠ 'f' ∧ c ≠ 's' ∧
      StateCommand.invoke "/q" (fun _ => "") none
        = ["Invalid flag: " ++ charRepr c] :=
  ⟨(C8_state_command_flags "q" (fun _ => "") none).1 (by decide) (by decide),
   (C8_state_command_flags "/q" (fun _ => "") none).2.1 (by decide)
     ⟨'q', by decide, by decide, by decide⟩⟩

/-- A printed binding line has positive length (it contains `" = "`). -/
theorem bindingLine_length_pos (sp : StatePrinter) (b : Binding) :
    0 < (sp.bindingLine b).length := by
  rw [StatePrinter.bindingLine, String.length_append, String.length_append,
    String.length_append]
  have h3 : (" = " : String).length = 3 := rfl
  omega

/-- A printed completed-expression line has positive length. -/
theorem doneLine_length_pos (sp : StatePrinter) (e : ExpressionEvaluation) :
    0 < (sp.doneLine e).length := by
  rw [StatePrinter.doneLine, String.length_append, String.length_append,
    String.length_append]
  have h4 : (" -> " : String).length = 4 := rfl
  omega

/-- Every line printed for an in-progress expression has positive length. -/
theorem startedLines_length_pos (last_started : Option ExpressionEvaluation) :
    ∀ l ∈ StatePrinter.startedLines last_started, 0 < l.length := by
  intro l hl
  cases last_started with
  | none => cases hl
  | some e =>
    simp only [StatePrinter.startedLines] at hl
    rcases List.mem_cons.mp hl with rfl | hl
    · rw [String.length_append]
      have h21 : ("Currently evaluating " : String).length = 21 := rfl
      omega
    · cases hsl : e.dsl_sloc with
      | none => rw [hsl] at hl; cases hl
      | some lo =>
        rw [hsl] at hl
        rcases List.mem_singleton.mp hl with rfl
        rw [String.length_append]
        have h5 : ("from " : String).length = 5 := rfl
        omega

/-- Every item printed for a scope has positive length: no printed item of a
scope is itself a blank line. -/
theorem scopeItems_length_pos (sp : StatePrinter) (ss : ScopeState) :
    ∀ l ∈ sp.scopeItems ss, 0 < l.length := by
  intro l hl
  simp only [StatePrinter.scopeItems] at hl
  rcases List.mem_append.mp hl with h1 | hC
  · rcases List.mem_append.mp h1 with hA | hB
    · obtain ⟨b, -, rfl⟩ := List.mem_map.mp hA
      exact bindingLine_length_pos sp b
    · obtain ⟨e, -, heq⟩ := List.mem_filterMap.mp hB
      by_cases hstart : e.is_started
      · rw [if_pos hstart] at heq
        cases heq
      · rw [if_neg hstart] at heq
        by_cases hdone : e.is_done
        · rw [if_pos hdone] at heq
          cases heq
          exact doneLine_length_pos sp e
        · rw [if_neg hdone] at heq
          cases heq
  · exact startedLines_length_pos _ l hC

/-- The lines of a scope with at least one printable item are one blank line
followed by the items. -/
theorem scopeLines_eq_blank_cons (sp : StatePrinter) (ss : ScopeState)
    (h : sp.scopeItems ss ≠ []) :
    sp.scopeLines ss = "" :: sp.scopeItems ss := by
  rw [StatePrinter.scopeLines]
  cases hi : sp.scopeItems ss with
  | nil => exact absurd hi h
  | cons x xs => rfl

/-- Any item of a scope of the printed state is one of the printed lines. -/
theorem mem_run_of_mem_scopeItems (sp : StatePrinter) (st : State)
    (hst : sp.state = some st) (ss : ScopeState) (hss : ss ∈ st.scopes)
    (l : String) (hl : l ∈ sp.scopeItems ss) : l ∈ sp.run := by
  have hne : sp.scopeItems ss ≠ [] := by
    intro he
    rw [he] at hl
    cases hl
  rw [StatePrinter.run, hst]
  refine List.mem_cons_of_mem _ (List.mem_cons_of_mem _ ?_)
  refine List.mem_flatMap.mpr ⟨ss, hss, ?_⟩
  rw [scopeLines_eq_blank_cons sp ss hne]
  exact List.mem_cons_of_mem _ hl

/-- C7: For every non-null state printed by the state printer and every scope
state in it, exactly one leading blank line is emitted immediately before the
first printed item of that scope if the scope produces at least one printed
item, and no blank line (indeed no line at all) is emitted for a scope that
produces no printed items. -/
theorem C7_scope_leading_blank_line (sp : StatePrinter) (st : State)
    (hst : sp.state = some st) (ss : ScopeState) (_hss : ss ∈ st.scopes) :
    (sp.scopeItems ss = [] → sp.scopeLines ss = []) ∧
    (sp.scopeItems ss ≠ [] →
      sp.scopeLines ss = "" :: sp.scopeItems ss ∧
        ∀ l ∈ sp.scopeItems ss, l ≠ "") ∧
    sp.run = ("Running " ++ st.property.name) ::
      ("from " ++ st.property.dsl_sloc) ::
      (st.scopes.flatMap fun s => sp.scopeLines s) := by
  refine ⟨fun he => ?_, fun hne => ⟨scopeLines_eq_blank_cons sp ss hne, ?_⟩, ?_⟩
  · rw [StatePrinter.scopeLines, he]
  · intro l hl
    exact String.ne_empty_of_length_pos (scopeItems_length_pos sp ss l hl)
  · rw [StatePrinter.run, hst]

/-- Witness for C7 at a concrete state: a scope with one binding gets exactly
one leading blank line. -/
theorem C7_scope_leading_blank_line_witness :
    StatePrinter.scopeLines
        ⟨fun _ => "v", some ⟨⟨"P.p", "p.py:1", []⟩, [⟨⟨5, []⟩, [⟨"x", "X_1"⟩], []⟩]⟩,
         true, false⟩
        ⟨⟨5, []⟩, [⟨"x", "X_1"⟩], []⟩
      = "" :: StatePrinter.scopeItems
        ⟨fun _ => "v", some ⟨⟨"P.p", "p.py:1", []⟩, [⟨⟨5, []⟩, [⟨"x", "X_1"⟩], []⟩]⟩,
         true, false⟩
        ⟨⟨5, []⟩, [⟨"x", "X_1"⟩], []⟩ :=
  ((C7_scope_leading_blank_line
      ⟨fun _ => "v", some ⟨⟨"P.p", "p.py:1", []⟩, [⟨⟨5, []⟩, [⟨"x", "X_1"⟩], []⟩]⟩,
       true, false⟩
      ⟨⟨"P.p", "p.py:1", []⟩, [⟨⟨5, []⟩, [⟨"x", "X_1"⟩], []⟩]⟩ rfl
      ⟨⟨5, []⟩, [⟨"x", "X_1"⟩], []⟩ (by simp)).2.1 (by decide)).1

/-- C6: For every binding line and every completed-expression line printed by
the state printer: when the with-locations option is false the line never
contains a storage-name parenthetical, and when it is true the line always
contains the storage-name parenthetical. -/
theorem C6_loc_image_parenthetical (sp : StatePrinter) (st : State)
    (hst : sp.state = some st) (ss : ScopeState) (hss : ss ∈ st.scopes) :
    (∀ b ∈ ss.bindings,
      sp.bindingLine b ∈ sp.run ∧
      (sp.with_locs = false →
        sp.bindingLine b = b.dsl_name ++ " = " ++ sp.value_image b.gen_name) ∧
      (sp.with_locs = true →
        sp.bindingLine b
          = b.dsl_name ++ (" (" ++ b.gen_name ++ ")") ++ " = "
              ++ sp.value_image b.gen_name)) ∧
    (∀ e ∈ ss.expressions, e.is_started = false → e.is_done = true →
      sp.doneLine e ∈ sp.run ∧
      (sp.with_locs = false →
        sp.doneLine e = e.expr_repr ++ " -> " ++ sp.value_image e.result_var) ∧
      (sp.with_locs = true →
        sp.doneLine e
          = e.expr_repr ++ (" (" ++ e.result_var ++ ")") ++ " -> "
              ++ sp.value_image e.result_var)) := by
  constructor
  · intro b hb
    refine ⟨?_, fun hlocs => ?_, fun hlocs => ?_⟩
    · refine mem_run_of_mem_scopeItems sp st hst ss hss _ ?_
      rw [StatePrinter.scopeItems]
      exact List.mem_append_left _
        (List.mem_append_left _ (List.mem_map_of_mem _ hb))
    · rw [StatePrinter.bindingLine, StatePrinter.loc_image, hlocs]
      simp
    · rw [StatePrinter.bindingLine, StatePrinter.loc_image, hlocs]
      simp
  · intro e he hstart hdone
    refine ⟨?_, fun hlocs => ?_, fun hlocs => ?_⟩
    · refine mem_run_of_mem_scopeItems sp st hst ss hss _ ?_
      rw [StatePrinter.scopeItems]
      refine List.mem_append_left _ (List.mem_append_right _ ?_)
      refine List.mem_filterMap.mpr ⟨e, he, ?_⟩
      rw [hstart, hdone]
      rfl
    · rw [StatePrinter.doneLine, StatePrinter.loc_image, hlocs]
      simp
    · rw [StatePrinter.doneLine, StatePrinter.loc_image, hlocs]
      simp

/-- Witness for C6 at a concrete state with the with-locations option on: the
binding line carries the storage-name parenthetical. -/
theorem C6_loc_image_parenthetical_witness :
    StatePrinter.bindingLine
        ⟨fun _ => "v",
         some ⟨⟨"P.p", "p.py:1", []⟩,
               [⟨⟨5, []⟩, [⟨"x", "X_1"⟩], [⟨1, "x+1", none, .done, "R_1"⟩]⟩]⟩,
         true, true⟩
        ⟨"x", "X_1"⟩
      = "x" ++ (" (" ++ "X_1" ++ ")") ++ " = "
          ++ StatePrinter.value_image
            ⟨fun _ => "v",
             some ⟨⟨"P.p", "p.py:1", []⟩,
                   [⟨⟨5, []⟩, [⟨"x", "X_1"⟩], [⟨1, "x+1", none, .done, "R_1"⟩]⟩]⟩,
             true, true⟩ "X_1" :=
  (((C6_loc_image_parenthetical
      ⟨fun _ => "v",
       some ⟨⟨"P.p", "p.py:1", []⟩,
             [⟨⟨5, []⟩, [⟨"x", "X_1"⟩], [⟨1, "x+1", none, .done, "R_1"⟩]⟩]⟩,
       true, true⟩
      ⟨⟨"P.p", "p.py:1", []⟩,
       [⟨⟨5, []⟩, [⟨"x", "X_1"⟩], [⟨1, "x+1", none, .done, "R_1"⟩]⟩]⟩ rfl
      ⟨⟨5, []⟩, [⟨"x", "X_1"⟩], [⟨1, "x+1", none, .done, "R_1"⟩]⟩
      (by simp)).1 ⟨"x", "X_1"⟩ (by simp)).2.2) rfl

/-- C2: For every breakpoint-by-name request: if the query (after
lower-casing) is empty, or no property's name matches case-insensitively, or
the unique matching property has no inner scopes, the command prints a
corresponding message and sets no breakpoint; otherwise it sets exactly one
breakpoint at the first line of the matched property's first inner scope, in
the generated source file. -/
theorem C2_break_on_property (di : DebugInfo) (q : String) :
    (pyLower q = "" →
      BreakCommand.break_on_property di q
        = { prints := ["Missing breakpoint specification"] }) ∧
    (pyLower q ≠ "" →
      (di.properties.filter (fun p => pyLower p.name == pyLower q) = [] →
        BreakCommand.break_on_property di q
          = { prints := ["No such property: " ++ q] }) ∧
      (∀ p, di.properties.filter (fun p => pyLower p.name == pyLower q) = [p] →
        (p.subscopes = [] →
          BreakCommand.break_on_property di q
            = { prints := [p.name ++ " has no code"] }) ∧
        (∀ s rest, p.subscopes = s :: rest →
          BreakCommand.break_on_property di q
            = { breakpoints := [di.filename ++ ":" ++ toString s.first_line] }))) := by
  refine ⟨fun he => ?_, fun hne => ⟨fun hfil => ?_, fun p hfil => ⟨fun hsub => ?_, fun s rest hsub => ?_⟩⟩⟩
  · simp only [BreakCommand.break_on_property]
    rw [if_pos he]
  · have hf : di.properties.find? (fun p => pyLower p.name == pyLower q) = none := by
      rw [List.find?_eq_head?_filter, hfil]
      rfl
    simp only [BreakCommand.break_on_property]
    rw [if_neg hne, hf]
  · have hf : di.properties.find? (fun p => pyLower p.name == pyLower q) = some p := by
      rw [List.find?_eq_head?_filter, hfil]
      rfl
    simp only [BreakCommand.break_on_property]
    rw [if_neg hne, hf]
    simp only [hsub]
  · have hf : di.properties.find? (fun p => pyLower p.name == pyLower q) = some p := by
      rw [List.find?_eq_head?_filter, hfil]
      rfl
    simp only [BreakCommand.break_on_property]
    rw [if_neg hne, hf]
    simp only [hsub]

/-- Witness for C2 at concrete inputs: a case-insensitive match with one
inner scope gets one breakpoint at that scope's first line. -/
theorem C2_break_on_property_witness :
    BreakCommand.break_on_property
        ⟨"gen.adb", [⟨"P.p", "p.py:1", [Event.subScope 10 []]⟩]⟩ "p.P"
      = { breakpoints := ["gen.adb" ++ ":" ++ toString (10 : Nat)] } :=
  (((C2_break_on_property
      ⟨"gen.adb", [⟨"P.p", "p.py:1", [Event.subScope 10 []]⟩]⟩ "p.P").2
      (by decide)).2 ⟨"P.p", "p.py:1", [Event.subScope 10 []]⟩ (by decide)).2
      ⟨10, []⟩ [] (by decide)

mutual

/-- `process_scope` on one event collects exactly the event's located
`ExprStart` descendants that match the query, in traversal order. -/
theorem processEvent_eq_filter (q : DSLLocation) :
    ∀ e : Event,
      processEvent q e = (startsOf e).filter (fun m => m.1.matchesLoc q)
  | .binding _ _ => rfl
  | .exprDone _ _ _ => rfl
  | .exprStart _ _ none _ => rfl
  | .exprStart _ _ (some l) ln => by
    by_cases hm : l.matchesLoc q
    · rw [processEvent, if_pos hm, startsOf]
      simp [List.filter_cons, hm]
    · have hm' : l.matchesLoc q = false := by simpa using hm
      rw [processEvent, if_neg hm, startsOf]
      simp [List.filter_cons, hm']
  | .subScope _ evs => processEvents_eq_filter q evs

/-- `process_scope` on an event list collects exactly the tree's located
`ExprStart` events that match the query, in traversal order. -/
theorem processEvents_eq_filter (q : DSLLocation) :
    ∀ evs : List Event,
      processEvents q evs
        = (allStarts evs).filter (fun m => m.1.matchesLoc q)
  | [] => rfl
  | e :: rest => by
    rw [processEvents, allStarts, List.filter_append,
      processEvents_eq_filter q rest, processEvent_eq_filter q e]

end

/-- C3: For every breakpoint-by-source-location request, the recursive search
over all properties' scope trees collects every `ExprStart` event whose
source location matches under the partial-match rule; exactly one match sets
a breakpoint at that event's generated line, zero matches print a no-match
message and set no breakpoint, and two or more matches print a message
listing every candidate and set no breakpoint. -/
theorem C3_break_on_dsl_sloc (di : DebugInfo) (q : DSLLocation) :
    (∀ m : Match, m ∈ collectMatches di q ↔
      m.prop ∈ di.properties ∧
        (m.dsl_sloc, m.line_no) ∈ allStarts m.prop.events ∧
        m.dsl_sloc.matchesLoc q = true) ∧
    (collectMatches di q = [] →
      BreakCommand.break_on_dsl_sloc di q
        = { prints := ["No match for " ++ q.str] }) ∧
    (∀ m, collectMatches di q = [m] →
      BreakCommand.break_on_dsl_sloc di q
        = { breakpoints := [di.filename ++ ":" ++ toString m.line_no] }) ∧
    (∀ m1 m2 rest, collectMatches di q = m1 :: m2 :: rest →
      BreakCommand.break_on_dsl_sloc di q
        = { prints := ("Multiple matches for " ++ q.str ++ ":") ::
            (m1 :: m2 :: rest).map
              (fun m => "  In " ++ m.prop.name ++ ", " ++ m.dsl_sloc.str) }) := by
  refine ⟨fun m => ?_, fun h => ?_, fun m h => ?_, fun m1 m2 rest h => ?_⟩
  · constructor
    · intro hm
      obtain ⟨p, hp, hmm⟩ := List.mem_flatMap.mp hm
      obtain ⟨x, hx, rfl⟩ := List.mem_map.mp hmm
      rw [processEvents_eq_filter] at hx
      obtain ⟨hx1, hx2⟩ := List.mem_filter.mp hx
      exact ⟨hp, by simpa using hx1, hx2⟩
    · rintro ⟨hp, hst, hq⟩
      refine List.mem_flatMap.mpr ⟨m.prop, hp, ?_⟩
      refine List.mem_map.mpr ⟨(m.dsl_sloc, m.line_no), ?_, rfl⟩
      rw [processEvents_eq_filter]
      exact List.mem_filter.mpr ⟨hst, by simpa using hq⟩
  · simp only [BreakCommand.break_on_dsl_sloc]
    rw [h]
  · simp only [BreakCommand.break_on_dsl_sloc]
    rw [h]
  · simp only [BreakCommand.break_on_dsl_sloc]
    rw [h]

/-- Witness for C3 at a concrete model with exactly one matching `ExprStart`:
one breakpoint is set at its generated line. -/
theorem C3_break_on_dsl_sloc_witness :
    BreakCommand.break_on_dsl_sloc
        ⟨"gen.adb",
         [⟨"P.p", "p.py:1",
           [Event.exprStart 1 "x+1" (some ⟨"p.py", 5, none⟩) 10]⟩]⟩
        ⟨"p.py", 5, none⟩
      = { breakpoints := ["gen.adb" ++ ":" ++ toString (10 : Nat)] } :=
  (C3_break_on_dsl_sloc
      ⟨"gen.adb",
       [⟨"P.p", "p.py:1",
         [Event.exprStart 1 "x+1" (some ⟨"p.py", 5, none⟩) 10]⟩]⟩
      ⟨"p.py", 5, none⟩).2.2.1
    ⟨⟨"P.p", "p.py:1", [Event.exprStart 1 "x+1" (some ⟨"p.py", 5, none⟩) 10]⟩,
     ⟨"p.py", 5, none⟩, 10⟩
    (by decide)

/-- `doneLinesFor` on a matching `ExprDone` head event. -/
theorem doneLinesFor_cons_pos (i ln : Nat) (v : String) (expr_id : Nat)
    (rest : List Event) (hi : (i == expr_id) = true) :
    doneLinesFor (Event.exprDone i ln v :: rest) expr_id
      = ln :: doneLinesFor rest expr_id := by
  have he : i = expr_id := by simpa using hi
  simp [doneLinesFor, List.filterMap_cons, he]

/-- `doneLinesFor` on a non-matching `ExprDone` head event. -/
theorem doneLinesFor_cons_neg (i ln : Nat) (v : String) (expr_id : Nat)
    (rest : List Event) (hi : (i == expr_id) = false) :
    doneLinesFor (Event.exprDone i ln v :: rest) expr_id
      = doneLinesFor rest expr_id := by
  have he : ¬ i = expr_id := by simpa using hi
  simp [doneLinesFor, List.filterMap_cons, he]

/-- The end-of-evaluation scan keeps overwriting its candidate: folding from
any accumulator yields the last matching `ExprDone` line, or the accumulator
when there is none. -/
theorem untilLineScan_foldl (expr_id : Nat) :
    ∀ (evs : List Event) (a : Option Nat),
      evs.foldl (untilStep expr_id) a
        = ((doneLinesFor evs expr_id).getLast?).or a := by
  intro evs
  induction evs with
  | nil => intro a; rfl
  | cons e rest ih =>
    intro a
    rw [List.foldl_cons, ih]
    cases e with
    | binding dn gn => rfl
    | exprStart i r sl ln => rfl
    | subScope fl evs' => rfl
    | exprDone i ln v =>
      by_cases hi : (i == expr_id) = true
      · rw [doneLinesFor_cons_pos i ln v expr_id rest hi,
          show untilStep expr_id a (Event.exprDone i ln v) = some ln from by
            simp [untilStep, hi]]
        cases hrest : doneLinesFor rest expr_id with
        | nil => rfl
        | cons x xs =>
          rw [List.getLast?_cons_cons]
          cases hg : (x :: xs).getLast? with
          | none => exact absurd (List.getLast?_eq_none_iff.mp hg) (by simp)
          | some L => rfl
      · have hi' : (i == expr_id) = false := by simpa using hi
        rw [doneLinesFor_cons_neg i ln v expr_id rest hi',
          show untilStep expr_id a (Event.exprDone i ln v) = a from by
            simp [untilStep, hi']]

/-- The `until` line of the `out` command is the last matching `ExprDone`
line of the scope's event list. -/
theorem untilLineScan_eq_getLast (events : List Event) (expr_id : Nat) :
    OutCommand.untilLineScan events expr_id
      = (doneLinesFor events expr_id).getLast? := by
  rw [OutCommand.untilLineScan, untilLineScan_foldl]
  exact Option.or_none

/-- Case analysis of `OutCommand.invoke` after the resume: given the current
expression and the scan result, the command's outcome is determined by the
re-decoded state. -/
theorem invoke_resume_cases (st : State) (redecode : Nat → Option State)
    (readVar : String → String) (ss : ScopeState) (cur : ExpressionEvaluation)
    (ln : Nat) (hcur : OutCommand.lookup_current_expr st = some (ss, cur))
    (hscan : OutCommand.untilLineScan ss.scope.events cur.expr_id = some ln) :
    OutCommand.invoke "" (some st) redecode readVar
      = match redecode ln with
        | none => .raised { untilExecuted := some ln }
        | some new_state =>
          if new_state.property ≠ st.property then
            .ok { prints := [OutCommand.errorMsg "we landed in another property"],
                  untilExecuted := some ln }
          else
            match OutCommand.lookup_expr new_state cur.expr_id with
            | none =>
              .ok { prints := [OutCommand.errorMsg "cannot find back the same expression"],
                    untilExecuted := some ln }
            | some ne =>
              if ¬ ne.is_done then
                .ok { prints := [OutCommand.errorMsg "the expression is not evaluated yet"],
                      untilExecuted := some ln }
              else
                .ok { prints := [cur.expr_repr ++ " evaluated to: "
                        ++ readVar (pyLower ne.result_var)],
                      untilExecuted := some ln } := by
  simp only [OutCommand.invoke, hcur, hscan]
  rw [if_neg (fun h => h rfl)]

/-- C10: For every step-out invocation where the enclosing scope's event list
contains two or more `ExprDone` events carrying the in-progress expression's
id, the resume target line is the generated line of the last such `ExprDone`
event in event order (the scan keeps overwriting the candidate rather than
stopping at the first match). -/
theorem C10_step_out_resumes_to_last_done (st : State)
    (redecode : Nat → Option State) (readVar : String → String)
    (ss : ScopeState) (cur : ExpressionEvaluation)
    (hcur : OutCommand.lookup_current_expr st = some (ss, cur))
    (h2 : 2 ≤ (doneLinesFor ss.scope.events cur.expr_id).length) :
    OutCommand.untilLineScan ss.scope.events cur.expr_id
      = (doneLinesFor ss.scope.events cur.expr_id).getLast? ∧
    (OutCommand.invoke "" (some st) redecode readVar).untilLine
      = (doneLinesFor ss.scope.events cur.expr_id).getLast? := by
  have hgl := untilLineScan_eq_getLast ss.scope.events cur.expr_id
  refine ⟨hgl, ?_⟩
  obtain ⟨ln, hln⟩ :
      ∃ ln, (doneLinesFor ss.scope.events cur.expr_id).getLast? = some ln := by
    cases hg : (doneLinesFor ss.scope.events cur.expr_id).getLast? with
    | none =>
      rw [List.getLast?_eq_none_iff] at hg
      rw [hg] at h2
      exact absurd h2 (by decide)
    | some ln => exact ⟨ln, rfl⟩
  rw [hln,
    invoke_resume_cases st redecode readVar ss cur ln hcur (hgl.trans hln)]
  cases hr : redecode ln with
  | none => rfl
  | some nst =>
    dsimp only
    by_cases hp : nst.property = st.property
    · rw [if_neg (not_not_intro hp)]
      cases hl2 : OutCommand.lookup_expr nst cur.expr_id with
      | none => rfl
      | some ne =>
        dsimp only
        by_cases hd : ne.is_done = true
        · rw [if_neg (not_not_intro hd)]
          rfl
        · rw [if_pos hd]
          rfl
    · rw [if_pos hp]
      rfl

/-- Witness for C10 at a concrete state whose scope has two `ExprDone` events
for the in-progress expression: the resume target is the line of the last
one. -/
theorem C10_step_out_resumes_to_last_done_witness :
    (OutCommand.invoke ""
        (some ⟨⟨"P.p", "p.py:1", []⟩,
          [⟨⟨10, [Event.exprDone 1 12 "A", Event.exprDone 1 20 "B"]⟩, [],
            [⟨1, "x+1", none, .started, ""⟩]⟩]⟩)
        (fun _ => none) (fun _ => "")).untilLine
      = (doneLinesFor [Event.exprDone 1 12 "A", Event.exprDone 1 20 "B"]
          1).getLast? :=
  (C10_step_out_resumes_to_last_done
      ⟨⟨"P.p", "p.py:1", []⟩,
        [⟨⟨10, [Event.exprDone 1 12 "A", Event.exprDone 1 20 "B"]⟩, [],
          [⟨1, "x+1", none, .started, ""⟩]⟩]⟩
      (fun _ => none) (fun _ => "")
      ⟨⟨10, [Event.exprDone 1 12 "A", Event.exprDone 1 20 "B"]⟩, [],
        [⟨1, "x+1", none, .started, ""⟩]⟩
      ⟨1, "x+1", none, .started, ""⟩
      (by decide) (by decide)).2

/-- C1: On an `out` invocation with an empty argument, the code prints the
fixed no-op message when a state was decoded but no expression is in
progress; on a null decoded state, however, the code raises an
`AttributeError` (accessing `scopes` on `None` in `lookup_current_expr`)
instead of printing the message the claim and spec describe.  The third
conjunct identifies the no-in-progress-expression condition with the
innermost-first, reverse-event-order search coming up empty. -/
theorem C1_out_no_current_expression (redecode : Nat → Option State)
    (readVar : String → String) (st : State) :
    OutCommand.invoke "" none redecode readVar = .raised {} ∧
    (OutCommand.lookup_current_expr st = none →
      OutCommand.invoke "" (some st) redecode readVar
        = .ok { prints := ["Not evaluating any expression currently"] }) ∧
    (OutCommand.lookup_current_expr st = none ↔
      ∀ ss ∈ st.scopes, ∀ e ∈ ss.expressions, e.is_started = false) := by
  refine ⟨?_, fun h => ?_, ?_⟩
  · rw [OutCommand.invoke, if_neg (fun hc => hc rfl)]
  · simp only [OutCommand.invoke, h]
    rw [if_neg (fun hc => hc rfl)]
  · rw [OutCommand.lookup_current_expr, List.findSome?_eq_none_iff]
    constructor
    · intro h ss hss e he
      have h1 := h ss (List.mem_reverse.mpr hss)
      rw [Option.map_eq_none', List.find?_eq_none] at h1
      have h2 := h1 e (List.mem_reverse.mpr he)
      simpa using h2
    · intro h ss hss
      rw [Option.map_eq_none', List.find?_eq_none]
      intro e he
      have h1 := h ss (List.mem_reverse.mp hss) e (List.mem_reverse.mp he)
      simp [h1]

/-- Witness for C1 at a concrete state whose only expression evaluation is
already done: the fixed message is printed and nothing else happens. -/
theorem C1_out_no_current_expression_witness :
    OutCommand.invoke ""
        (some ⟨⟨"P.p", "p.py:1", []⟩,
          [⟨⟨5, []⟩, [], [⟨1, "x+1", none, .done, "R_1"⟩]⟩]⟩)
        (fun _ => none) (fun _ => "")
      = .ok { prints := ["Not evaluating any expression currently"] } :=
  (C1_out_no_current_expression (fun _ => none) (fun _ => "")
      ⟨⟨"P.p", "p.py:1", []⟩,
        [⟨⟨5, []⟩, [], [⟨1, "x+1", none, .done, "R_1"⟩]⟩]⟩).2.1
    (by decide)

/-- C4: After the resume of a step-out, the three consistency checks on a
non-null re-decoded state each produce their own distinct printed diagnostic
and abort the command; a null re-decoded state, however, makes the code raise
an `AttributeError` (accessing `scopes` on `None` in `lookup_expr`) instead
of printing a diagnostic. -/
theorem C4_step_out_consistency_checks (st : State)
    (redecode : Nat → Option State) (readVar : String → String)
    (ss : ScopeState) (cur : ExpressionEvaluation) (ln : Nat)
    (hcur : OutCommand.lookup_current_expr st = some (ss, cur))
    (hscan : OutCommand.untilLineScan ss.scope.events cur.expr_id = some ln) :
    (redecode ln = none →
      OutCommand.invoke "" (some st) redecode readVar
        = .raised { untilExecuted := some ln }) ∧
    (∀ nst, redecode ln = some nst →
      (nst.property ≠ st.property →
        OutCommand.invoke "" (some st) redecode readVar
          = .ok { prints := [OutCommand.errorMsg "we landed in another property"],
                  untilExecuted := some ln }) ∧
      (nst.property = st.property →
        OutCommand.lookup_expr nst cur.expr_id = none →
        OutCommand.invoke "" (some st) redecode readVar
          = .ok { prints := [OutCommand.errorMsg "cannot find back the same expression"],
                  untilExecuted := some ln }) ∧
      (∀ ne, nst.property = st.property →
        OutCommand.lookup_expr nst cur.expr_id = some ne → ne.is_done = false →
        OutCommand.invoke "" (some st) redecode readVar
          = .ok { prints := [OutCommand.errorMsg "the expression is not evaluated yet"],
                  untilExecuted := some ln })) := by
  rw [invoke_resume_cases st redecode readVar ss cur ln hcur hscan]
  refine ⟨fun hr => by rw [hr],
    fun nst hr => ⟨fun hp => ?_, fun hp hl => ?_, fun ne hp hl hd => ?_⟩⟩
  · rw [hr]
    dsimp only
    rw [if_pos hp]
  · rw [hr]
    dsimp only
    rw [if_neg (not_not_intro hp), hl]
  · rw [hr]
    dsimp only
    rw [if_neg (not_not_intro hp), hl]
    dsimp only
    rw [if_pos (by simp [hd])]

/-- Witness for C4 at a concrete in-progress state whose re-decode yields
null: the command ends in the raised outcome after the resume. -/
theorem C4_step_out_consistency_checks_witness :
    OutCommand.invoke ""
        (some ⟨⟨"P.p", "p.py:1", []⟩,
          [⟨⟨10, [Event.exprDone 1 12 "R_1"]⟩, [],
            [⟨1, "x+1", none, .started, ""⟩]⟩]⟩)
        (fun _ => none) (fun _ => "")
      = .raised { untilExecuted := some 12 } :=
  (C4_step_out_consistency_checks
      ⟨⟨"P.p", "p.py:1", []⟩,
        [⟨⟨10, [Event.exprDone 1 12 "R_1"]⟩, [],
          [⟨1, "x+1", none, .started, ""⟩]⟩]⟩
      (fun _ => none) (fun _ => "")
      ⟨⟨10, [Event.exprDone 1 12 "R_1"]⟩, [],
        [⟨1, "x+1", none, .started, ""⟩]⟩
      ⟨1, "x+1", none, .started, ""⟩ 12
      (by decide) (by decide)).1 rfl

end Langkit
